import Mathlib

/-!
# Verification of the `CanvasAnimation` camera/viewport/virtualization engine

Shallow embedding of `src/render.ts` (class `CanvasAnimation`).  JavaScript
numbers are modelled as exact rationals (`ℚ`); the JavaScript remainder
operator `%` on integral values is `Int.tmod` (truncated, sign of the
dividend) and `Math.floor` is `Int.floor`.  Drawing calls are external
effects and carry no state, so `render`'s state effect is `animateVelocity`;
the per-cell geometry computed inside the render loop is embedded as
functions of the state and the loop index.
-/

/-- `Vec2` from `types.ts`: a 2-D point. -/
structure Vec2 where
  x : ℚ
  y : ℚ
deriving DecidableEq

/-- `Vec3` from `types.ts`: camera vector; `z` is the uniform scale. -/
structure Vec3 where
  x : ℚ
  y : ℚ
  z : ℚ
deriving DecidableEq

/-- `Box` from `types.ts`: axis-aligned rectangle with cached extent. -/
structure Box where
  minX : ℚ
  minY : ℚ
  maxX : ℚ
  maxY : ℚ
  width : ℚ
  height : ℚ
deriving DecidableEq

/-- `this.grid = { rows: 10, cols: 10 }`. -/
structure GridDims where
  rows : ℕ
  cols : ℕ
deriving DecidableEq

/-- `this.cell = { width, height }`. -/
structure CellDims where
  width : ℚ
  height : ℚ
deriving DecidableEq

/-- The `{ index, col, row }` triples stored in `activeCell`/`hoveredCell`. -/
structure CellRef where
  index : ℤ
  col : ℤ
  row : ℤ
deriving DecidableEq

/-- The mutable instance fields of `CanvasAnimation` that take part in the
camera/viewport/virtualization engine.  The drawing context, emoji strings
and debug/framerate fields carry no engine state and are omitted. -/
structure AnimState where
  camera : Vec3
  canvas : Box
  viewport : Box
  grid : GridDims
  cell : CellDims
  mouse : Option (Vec2 × Vec2)
  pressStartPoint : Vec2
  velocity : Vec2
  activeCell : CellRef
  hoveredCell : CellRef
  isPressed : Bool
deriving DecidableEq

/-- `screenToCanvas`: `{x: p.x / camera.z - camera.x, y: p.y / camera.z - camera.y}`. -/
def screenToCanvas (s : AnimState) (p : Vec2) : Vec2 :=
  ⟨p.x / s.camera.z - s.camera.x, p.y / s.camera.z - s.camera.y⟩

/-- The new `camera.x` computed by `panCamera`: wrap-snap when the negated
camera x has left `[0, canvas.width]`, otherwise the naive delta. -/
def panX (s : AnimState) (dx : ℚ) : ℚ :=
  if -s.camera.x < 0 then -s.canvas.width
  else if -s.camera.x > s.canvas.width then 0
  else s.camera.x - dx / s.camera.z

/-- The new `camera.y` computed by `panCamera`. -/
def panY (s : AnimState) (dy : ℚ) : ℚ :=
  if -s.camera.y < 0 then -s.canvas.height
  else if -s.camera.y > s.canvas.height then 0
  else s.camera.y - dy / s.camera.z

/-- `panCamera(dx, dy)`: update the camera per axis, then recompute the
viewport rectangle from the new camera and the old viewport extent. -/
def panCamera (s : AnimState) (dx dy : ℚ) : AnimState :=
  { s with
    camera := ⟨panX s dx, panY s dy, s.camera.z⟩
    viewport :=
      ⟨-(panX s dx), -(panY s dy),
       -(panX s dx) + s.viewport.width, -(panY s dy) + s.viewport.height,
       s.viewport.width, s.viewport.height⟩ }

/-- The normalization `const nCol = col >= 0 ? col : cols + col` applied to
`col = m % cols` (JavaScript truncated remainder). -/
def wrapIdx (m c : ℤ) : ℤ :=
  if 0 ≤ m.tmod c then m.tmod c else c + m.tmod c

/-- `getCellIndexFromPoint(x, y)`: convert to canvas space, take the floored
cell coordinates modulo the grid, shift negative remainders into range, and
return `{index: nCol + nRow * cols, col: nCol, row: nRow}`. -/
def getCellIndexFromPoint (s : AnimState) (x y : ℚ) : CellRef :=
  let p := screenToCanvas s ⟨x, y⟩
  let nCol := wrapIdx ⌊p.x / s.cell.width⌋ (s.grid.cols : ℤ)
  let nRow := wrapIdx ⌊p.y / s.cell.height⌋ (s.grid.rows : ℤ)
  ⟨nCol + nRow * (s.grid.cols : ℤ), nCol, nRow⟩

/-- `resize(width, height)`: recompute the viewport from the current camera,
the cell size as `max(w/4, h/4)` by `cellWidth/4*5`, and the canvas extent
as `cellWidth*cols` by `cellHeight*rows`. -/
def resize (s : AnimState) (width height : ℚ) : AnimState :=
  { s with
    viewport :=
      ⟨-s.camera.x, -s.camera.y,
       -s.camera.x + width, -s.camera.y + height, width, height⟩
    cell :=
      ⟨max (width / 4) (height / 4),
       max (width / 4) (height / 4) / 4 * 5⟩
    canvas :=
      ⟨0, 0,
       max (width / 4) (height / 4) * (s.grid.cols : ℚ),
       max (width / 4) (height / 4) / 4 * 5 * (s.grid.rows : ℚ),
       max (width / 4) (height / 4) * (s.grid.cols : ℚ),
       max (width / 4) (height / 4) / 4 * 5 * (s.grid.rows : ℚ)⟩ }

/-- `animateVelocity()`: no-op while pressed or at zero velocity; snap to
zero below the `0.1` cutoff; otherwise pan by the velocity and decay it
by `0.9`. -/
def animateVelocity (s : AnimState) : AnimState :=
  if s.isPressed then s
  else if s.velocity.x = 0 ∧ s.velocity.y = 0 then s
  else if |s.velocity.x| < 1 / 10 ∧ |s.velocity.y| < 1 / 10 then
    { s with velocity := ⟨0, 0⟩ }
  else
    { panCamera s s.velocity.x s.velocity.y with
      velocity := ⟨s.velocity.x * (9 / 10), s.velocity.y * (9 / 10)⟩ }

/-- `rowIndex = i % grid.cols` for the loop index `i` of `render`. -/
def renderRowIndex (s : AnimState) (i : ℕ) : ℤ :=
  (i : ℤ).tmod (s.grid.cols : ℤ)

/-- `colIndex = Math.floor(i / grid.cols)` for the loop index `i` of `render`. -/
def renderColIndex (s : AnimState) (i : ℕ) : ℤ :=
  ⌊(i : ℚ) / (s.grid.cols : ℚ)⌋

/-- `cellMinX = camera.x + rowIndex * cell.width` in the render loop. -/
def cellMinX (s : AnimState) (i : ℕ) : ℚ :=
  s.camera.x + (renderRowIndex s i : ℚ) * s.cell.width

/-- `cellMinY = camera.y + colIndex * cell.height` in the render loop. -/
def cellMinY (s : AnimState) (i : ℕ) : ℚ :=
  s.camera.y + (renderColIndex s i : ℚ) * s.cell.height

/-- The wrap shift `shiftX` computed for cell `i` in the render loop. -/
def shiftX (s : AnimState) (i : ℕ) : ℚ :=
  if cellMinX s i + s.cell.width < 0 then s.canvas.width
  else if cellMinX s i > s.viewport.width + s.cell.width then -s.canvas.width
  else 0

/-- The wrap shift `shiftY` computed for cell `i` in the render loop. -/
def shiftY (s : AnimState) (i : ℕ) : ℚ :=
  if cellMinY s i + s.cell.height < 0 then s.canvas.height
  else if cellMinY s i > s.viewport.height + s.cell.height then -s.canvas.height
  else 0

/-- `isVisibleX = shiftX + cellMinX + width < viewport.width + cell.width`. -/
def isVisibleX (s : AnimState) (i : ℕ) : Prop :=
  shiftX s i + cellMinX s i + s.cell.width < s.viewport.width + s.cell.width

/-- `isVisibleY = shiftY + cellMinY + height < viewport.height + cell.height`. -/
def isVisibleY (s : AnimState) (i : ℕ) : Prop :=
  shiftY s i + cellMinY s i + s.cell.height < s.viewport.height + s.cell.height

instance (s : AnimState) (i : ℕ) : Decidable (isVisibleX s i) :=
  inferInstanceAs (Decidable (_ < _))

instance (s : AnimState) (i : ℕ) : Decidable (isVisibleY s i) :=
  inferInstanceAs (Decidable (_ < _))

/-- Cell `i` survives the `if (!isVisibleX || !isVisibleY) continue;` guard,
i.e. the render loop issues draw calls for it. -/
def cellDrawn (s : AnimState) (i : ℕ) : Prop :=
  isVisibleX s i ∧ isVisibleY s i

instance (s : AnimState) (i : ℕ) : Decidable (cellDrawn s i) :=
  inferInstanceAs (Decidable (_ ∧ _))

/-- Screen-space x of the drawn rectangle of cell `i`: the context is
translated by `camera.x` and the rectangle starts at
`rowIndex * width + shiftX`, so on screen it starts at `cellMinX + shiftX`. -/
def drawnMinX (s : AnimState) (i : ℕ) : ℚ :=
  cellMinX s i + shiftX s i

/-- Screen-space y of the drawn rectangle of cell `i`. -/
def drawnMinY (s : AnimState) (i : ℕ) : ℚ :=
  cellMinY s i + shiftY s i

/-- `onMove(x, y)`: update the previous/current mouse pair; while pressed,
set the velocity to the previous-minus-current delta and pan by it; finally
recompute the hovered cell at the (possibly panned) state. -/
def onMove (s : AnimState) (x y : ℚ) : AnimState :=
  let prev : Vec2 := match s.mouse with
    | none => ⟨x, y⟩
    | some m => m.2
  let s1 := { s with mouse := some (prev, ⟨x, y⟩) }
  let s2 :=
    if s1.isPressed then
      panCamera { s1 with velocity := ⟨prev.x - x, prev.y - y⟩ }
        (prev.x - x) (prev.y - y)
    else s1
  { s2 with hoveredCell := getCellIndexFromPoint s2 x y }

/-- `onPress(isPressed, x?, y?)`: on press, zero the velocity and (when both
coordinates are supplied) record the press start point; on release, zero the
velocity only when both coordinates are supplied and the horizontal
displacement from the press start point is under 10 pixels. -/
def onPress (s : AnimState) (pressed : Bool) (x y : Option ℚ) : AnimState :=
  if pressed then
    match x, y with
    | some xv, some yv =>
        { s with isPressed := pressed, velocity := ⟨0, 0⟩,
                 pressStartPoint := ⟨xv, yv⟩ }
    | _, _ => { s with isPressed := pressed, velocity := ⟨0, 0⟩ }
  else
    match x, y with
    | some xv, some _ =>
        if |s.pressStartPoint.x - xv| < 10 then
          { s with isPressed := pressed, velocity := ⟨0, 0⟩ }
        else { s with isPressed := pressed }
    | _, _ => { s with isPressed := pressed }

/-- `onClick(x, y)`: ignore drags (horizontal displacement over 10 pixels),
otherwise record the clicked cell. -/
def onClick (s : AnimState) (x y : ℚ) : AnimState :=
  if |s.pressStartPoint.x - x| > 10 then s
  else { s with activeCell := getCellIndexFromPoint s x y }

/-- `onWheel(deltaX, deltaY)`: pan by the negated wheel delta. -/
def onWheel (s : AnimState) (dx dy : ℚ) : AnimState :=
  panCamera s (-dx) (-dy)

/-- `onResize(width, height)`: delegates to `resize`. -/
def onResize (s : AnimState) (width height : ℚ) : AnimState :=
  resize s width height

/-- The state effect of `render(timestamp)`: drawing and the debug overlay
touch no engine state, so only `animateVelocity` remains. -/
def renderStep (s : AnimState) : AnimState :=
  animateVelocity s

/-- The constructor: camera at origin with scale 1, grid fixed at 10×10,
then `resize(width, height)`. -/
def construct (width height : ℚ) : AnimState :=
  resize
    { camera := ⟨0, 0, 1⟩
      canvas := ⟨0, 0, 0, 0, 0, 0⟩
      viewport := ⟨0, 0, 0, 0, 0, 0⟩
      grid := ⟨10, 10⟩
      cell := ⟨0, 0⟩
      mouse := none
      pressStartPoint := ⟨0, 0⟩
      velocity := ⟨0, 0⟩
      activeCell := ⟨0, 0, 0⟩
      hoveredCell := ⟨0, 0, 0⟩
      isPressed := false } width height

/-- One host event, as ingested by the public interface. -/
inductive Event where
  | render : Event
  | move : ℚ → ℚ → Event
  | press : Bool → Option ℚ → Option ℚ → Event
  | click : ℚ → ℚ → Event
  | wheel : ℚ → ℚ → Event
  | size : ℚ → ℚ → Event

/-- Dispatch one event to the corresponding public operation. -/
def step (s : AnimState) : Event → AnimState
  | Event.render => renderStep s
  | Event.move x y => onMove s x y
  | Event.press b x y => onPress s b x y
  | Event.click x y => onClick s x y
  | Event.wheel dx dy => onWheel s dx dy
  | Event.size w h => onResize s w h

/-- Run a sequence of public operations. -/
def run (s : AnimState) : List Event → AnimState
  | [] => s
  | e :: es => run (step s e) es

/-- Fold a list of `(dx, dy)` deltas through `panCamera`. -/
def panSeq (s : AnimState) : List (ℚ × ℚ) → AnimState
  | [] => s
  | d :: ds => panSeq (panCamera s d.1 d.2) ds

/-- The negated camera lies inside `[0, canvas]` on both axes, so the next
`panCamera` call takes the naive-delta branch rather than a wrap snap. -/
def noSnap (s : AnimState) : Prop :=
  0 ≤ -s.camera.x ∧ -s.camera.x ≤ s.canvas.width ∧
  0 ≤ -s.camera.y ∧ -s.camera.y ≤ s.canvas.height

instance (s : AnimState) : Decidable (noSnap s) :=
  inferInstanceAs (Decidable (_ ∧ _ ∧ _ ∧ _))

/-- No wrap snap fires at any point while folding the deltas through
`panCamera`. -/
def noSnapSeq (s : AnimState) : List (ℚ × ℚ) → Prop
  | [] => True
  | d :: ds => noSnap s ∧ noSnapSeq (panCamera s d.1 d.2) ds

def noSnapSeqDec : (l : List (ℚ × ℚ)) → (s : AnimState) → Decidable (noSnapSeq s l)
  | [], _ => Decidable.isTrue trivial
  | d :: ds, s =>
      have : Decidable (noSnapSeq (panCamera s d.1 d.2) ds) := noSnapSeqDec ds _
      instDecidableAnd

instance (s : AnimState) (l : List (ℚ × ℚ)) : Decidable (noSnapSeq s l) :=
  noSnapSeqDec l s

/-- Cumulative horizontal delta of a pan sequence. -/
def sumDx (l : List (ℚ × ℚ)) : ℚ :=
  (l.map Prod.fst).sum

/-- Cumulative vertical delta of a pan sequence. -/
def sumDy (l : List (ℚ × ℚ)) : ℚ :=
  (l.map Prod.snd).sum

/-- The camera/viewport coupling: the viewport rectangle is the one derived
from the camera position and the viewport extent. -/
def vpInv (s : AnimState) : Prop :=
  s.viewport.minX = -s.camera.x ∧ s.viewport.minY = -s.camera.y ∧
  s.viewport.maxX = s.viewport.minX + s.viewport.width ∧
  s.viewport.maxY = s.viewport.minY + s.viewport.height

instance (s : AnimState) : Decidable (vpInv s) :=
  inferInstanceAs (Decidable (_ ∧ _ ∧ _ ∧ _))

/-! ## Arithmetic helper lemmas -/

/-- JavaScript truncated remainder negates with its dividend. -/
theorem tmod_neg_dividend (a b : ℤ) : (-a).tmod b = -(a.tmod b) := by
  rw [Int.tmod_def, Int.tmod_def, Int.neg_tdiv, Int.mul_neg]
  ring

/-- The source's `col >= 0 ? col : cols + col` normalization of the
truncated remainder computes the Euclidean remainder. -/
theorem wrapIdx_eq_emod (m : ℤ) {c : ℤ} (hc : 0 < c) : wrapIdx m c = m % c := by
  unfold wrapIdx
  rcases le_or_lt 0 m with hm | hm
  · rw [Int.tmod_eq_emod hm hc.le, if_pos (Int.emod_nonneg m (by omega))]
  · have hrep : m.tmod c = -((-m) % c) := by
      rw [← Int.tmod_eq_emod (by omega) hc.le, ← tmod_neg_dividend, neg_neg]
    have h0 : 0 ≤ (-m) % c := Int.emod_nonneg _ (by omega)
    have h1 : (-m) % c < c := Int.emod_lt_of_pos _ hc
    have hm2 : m = -((-m) % c) - c * ((-m) / c) := by
      linarith [Int.emod_add_ediv (-m) c]
    rcases eq_or_lt_of_le h0 with h00 | h00
    · have hm3 : m = 0 + (-((-m) / c)) * c := by linarith
      have hmc : m % c = 0 := by
        conv_lhs => rw [hm3]
        rw [Int.add_mul_emod_self, Int.zero_emod]
      rw [hrep, ← h00, hmc]
      norm_num
    · have hm3 : m = (c - (-m) % c) + (-((-m) / c) - 1) * c := by linarith
      have hmc : m % c = (c - (-m) % c) % c := by
        conv_lhs => rw [hm3]
        rw [Int.add_mul_emod_self]
      have h2 : (c - (-m) % c) % c = c - (-m) % c :=
        Int.emod_eq_of_lt (by omega) (by omega)
      rw [hrep, if_neg (by omega), hmc, h2]
      omega

/-- Flooring the scaled midpoint of cell `m` recovers `m`. -/
theorem floor_mul_add_half_div {w : ℚ} (hw : 0 < w) (m : ℤ) :
    ⌊((m : ℚ) * w + w / 2) / w⌋ = m := by
  have h : ((m : ℚ) * w + w / 2) / w = (m : ℚ) + 1 / 2 := by
    field_simp
    ring
  rw [h, Int.floor_int_add]
  norm_num

/-! ## Shared lemmas about the operations -/

/-- `panCamera` recomputes the viewport from the new camera, so the
camera/viewport coupling holds unconditionally after it. -/
theorem vpInv_panCamera (s : AnimState) (dx dy : ℚ) : vpInv (panCamera s dx dy) := by
  simp [vpInv, panCamera]

/-- `resize` recomputes the viewport from the current camera, so the
camera/viewport coupling holds unconditionally after it. -/
theorem vpInv_resize (s : AnimState) (w h : ℚ) : vpInv (resize s w h) := by
  simp [vpInv, resize]

/-- No public operation writes the camera scale `camera.z`. -/
theorem step_z (s : AnimState) (e : Event) : (step s e).camera.z = s.camera.z := by
  cases e with
  | render =>
      show (animateVelocity s).camera.z = _
      unfold animateVelocity
      split_ifs <;> rfl
  | move x y =>
      show (onMove s x y).camera.z = _
      unfold onMove
      by_cases hp : s.isPressed <;> simp [hp, panCamera]
  | press b x y =>
      show (onPress s b x y).camera.z = _
      unfold onPress
      rcases x with _ | xv <;> rcases y with _ | yv <;> cases b <;> simp <;>
        split_ifs <;> rfl
  | click x y =>
      show (onClick s x y).camera.z = _
      unfold onClick
      split_ifs <;> rfl
  | wheel dx dy => rfl
  | size w h => rfl

/-- Event sequences never change the camera scale. -/
theorem run_z (s : AnimState) (es : List Event) : (run s es).camera.z = s.camera.z := by
  induction es generalizing s with
  | nil => rfl
  | cons e es ih => rw [run, ih, step_z]

/-! ## Claims -/

/-- C8: Resize idempotence — for positive `w`, `h`, calling `onResize(w, h)`
twice in succession yields exactly the same state (viewport rectangle, cell
size and canvas extent included) as calling it once. -/
theorem onResize_idem (s : AnimState) (w h : ℚ) (hw : 0 < w) (hh : 0 < h) :
    onResize (onResize s w h) w h = onResize s w h := by
  cases s
  rfl

/-- Witness for C8 at a concrete state and dimensions. -/
theorem onResize_idem_witness :
    (0 : ℚ) < 400 ∧ (0 : ℚ) < 500 ∧
    onResize (onResize (construct 300 200) 400 500) 400 500 =
      onResize (construct 300 200) 400 500 :=
  ⟨by norm_num, by norm_num,
   onResize_idem (construct 300 200) 400 500 (by norm_num) (by norm_num)⟩

/-- C10: a release `onPress(false, x?, y?)` with either coordinate omitted
leaves the velocity vector unchanged; the tap-suppression zeroing happens
only when both coordinates are supplied. -/
theorem onPress_release_missing_coord (s : AnimState) (x y : Option ℚ)
    (h : x = none ∨ y = none) :
    (onPress s false x y).velocity = s.velocity := by
  unfold onPress
  rcases x with _ | xv <;> rcases y with _ | yv <;> simp_all

/-- Witness for C10: a release with only `x` supplied keeps the velocity. -/
theorem onPress_release_missing_coord_witness :
    ((some (5 : ℚ) = none ∨ (none : Option ℚ) = none)) ∧
    (onPress (construct 400 500) false (some 5) none).velocity =
      (construct 400 500).velocity :=
  ⟨Or.inr rfl,
   onPress_release_missing_coord (construct 400 500) (some 5) none (Or.inr rfl)⟩

/-- C5: Tap vs drag — with `pressStartPoint = (x0, y0)`, a release
`onPress(false, x, y)` zeroes the velocity when `|x0 - x| < 10` and leaves
it unchanged when `|x0 - x| ≥ 10`; only the horizontal displacement is
consulted (`y0` and `y` are arbitrary). -/
theorem tap_vs_drag (s : AnimState) (x0 y0 x y : ℚ)
    (hstart : s.pressStartPoint = ⟨x0, y0⟩) :
    ((|x0 - x| < 10 → (onPress s false (some x) (some y)).velocity = ⟨0, 0⟩) ∧
     (10 ≤ |x0 - x| → (onPress s false (some x) (some y)).velocity = s.velocity)) := by
  unfold onPress
  simp only [hstart, Bool.false_eq_true, if_false]
  constructor
  · intro hlt
    simp [hlt]
  · intro hge
    rw [if_neg (by simpa using not_lt.mpr hge)]

/-- Witness for C5: press at x=3, release at x=5 (displacement 2 < 10)
zeroes the velocity. -/
theorem tap_vs_drag_witness :
    (onPress (construct 400 500) true (some 3) (some 4)).pressStartPoint =
      (⟨3, 4⟩ : Vec2) ∧
    |(3 : ℚ) - 5| < 10 ∧
    (onPress (onPress (construct 400 500) true (some 3) (some 4))
        false (some 5) (some 99)).velocity = (⟨0, 0⟩ : Vec2) :=
  ⟨by simp [onPress], by norm_num,
   (tap_vs_drag (onPress (construct 400 500) true (some 3) (some 4)) 3 4 5 99
      (by simp [onPress])).1 (by norm_num)⟩

/-- C9: Scale invariant — after any sequence of public operations following
construction, the camera scale equals its initial value 1 and in particular
stays strictly positive. -/
theorem scale_invariant (w h : ℚ) (es : List Event) :
    (run (construct w h) es).camera.z = 1 ∧
    0 < (run (construct w h) es).camera.z := by
  have hz : (run (construct w h) es).camera.z = 1 := by
    rw [run_z]
    rfl
  exact ⟨hz, by rw [hz]; norm_num⟩

/-- C7: Camera/viewport coupling — the viewport rectangle derived from the
camera (`minX = -camera.x`, `minY = -camera.y`, `maxX = minX + width`,
`maxY = minY + height`) holds after `panCamera` and `resize`
unconditionally, and is preserved by every public operation. -/
theorem camera_viewport_coupling :
    (∀ s dx dy, vpInv (panCamera s dx dy)) ∧
    (∀ s w h, vpInv (resize s w h)) ∧
    (∀ s x y, vpInv s → vpInv (onMove s x y)) ∧
    (∀ s b x y, vpInv s → vpInv (onPress s b x y)) ∧
    (∀ s x y, vpInv s → vpInv (onClick s x y)) ∧
    (∀ s dx dy, vpInv (onWheel s dx dy)) ∧
    (∀ s w h, vpInv (onResize s w h)) ∧
    (∀ s, vpInv s → vpInv (renderStep s)) := by
  refine ⟨vpInv_panCamera, vpInv_resize, ?_, ?_, ?_, ?_, ?_, ?_⟩
  · intro s x y hs
    unfold onMove
    by_cases hp : s.isPressed
    · simp only [hp, if_true]
      simp [vpInv] at *
      split <;> simp [panCamera] <;> exact hs
    · simp only [hp, if_false]
      simpa [vpInv] using hs
  · intro s b x y hs
    unfold onPress
    rcases x with _ | xv <;> rcases y with _ | yv <;> cases b <;>
      simp [vpInv] at hs ⊢ <;> try exact hs
    split_ifs <;> exact hs
  · intro s x y hs
    unfold onClick
    split_ifs <;> simpa [vpInv] using hs
  · intro s dx dy
    exact vpInv_panCamera s (-dx) (-dy)
  · intro s w h
    exact vpInv_resize s w h
  · intro s hs
    unfold renderStep animateVelocity
    split_ifs <;> first
      | exact hs
      | simpa [vpInv] using hs
      | simp [vpInv, panCamera]

/-- Witness for C7: the coupling hypothesis discharged at the freshly
constructed state for a concrete `onMove`. -/
theorem camera_viewport_coupling_witness :
    vpInv (construct 400 500) ∧ vpInv (onMove (construct 400 500) 3 4) :=
  ⟨by simp [vpInv, construct, resize],
   camera_viewport_coupling.2.2.1 (construct 400 500) 3 4
     (by simp [vpInv, construct, resize])⟩

/-- The normalized remainder lands in `[0, c)`. -/
theorem wrapIdx_nonneg_lt (m : ℤ) {c : ℤ} (hc : 0 < c) :
    0 ≤ wrapIdx m c ∧ wrapIdx m c < c := by
  rw [wrapIdx_eq_emod m hc]
  exact ⟨Int.emod_nonneg m (by omega), Int.emod_lt_of_pos m hc⟩

/-- C4: Modulo correctness — for every input coordinate, under positive cell
dimensions (and positive grid dimensions, fixed at 10×10 by construction),
`getCellIndexFromPoint` returns `col ∈ [0, cols)`, `row ∈ [0, rows)` and
`index = col + row*cols ∈ [0, cols*rows)`; never a negative column or row. -/
theorem cellFromPoint_modulo_correct (s : AnimState) (x y : ℚ)
    (hw : 0 < s.cell.width) (hh : 0 < s.cell.height)
    (hc : 0 < s.grid.cols) (hr : 0 < s.grid.rows) :
    (0 ≤ (getCellIndexFromPoint s x y).col ∧
      (getCellIndexFromPoint s x y).col < (s.grid.cols : ℤ)) ∧
    (0 ≤ (getCellIndexFromPoint s x y).row ∧
      (getCellIndexFromPoint s x y).row < (s.grid.rows : ℤ)) ∧
    (getCellIndexFromPoint s x y).index =
      (getCellIndexFromPoint s x y).col +
        (getCellIndexFromPoint s x y).row * (s.grid.cols : ℤ) ∧
    (0 ≤ (getCellIndexFromPoint s x y).index ∧
      (getCellIndexFromPoint s x y).index <
        (s.grid.cols : ℤ) * (s.grid.rows : ℤ)) := by
  have hcz : (0 : ℤ) < (s.grid.cols : ℤ) := by exact_mod_cast hc
  have hrz : (0 : ℤ) < (s.grid.rows : ℤ) := by exact_mod_cast hr
  have hcol := wrapIdx_nonneg_lt
    ⌊(screenToCanvas s ⟨x, y⟩).x / s.cell.width⌋ hcz
  have hrow := wrapIdx_nonneg_lt
    ⌊(screenToCanvas s ⟨x, y⟩).y / s.cell.height⌋ hrz
  have hcolEq : (getCellIndexFromPoint s x y).col =
      wrapIdx ⌊(screenToCanvas s ⟨x, y⟩).x / s.cell.width⌋ (s.grid.cols : ℤ) := rfl
  have hrowEq : (getCellIndexFromPoint s x y).row =
      wrapIdx ⌊(screenToCanvas s ⟨x, y⟩).y / s.cell.height⌋ (s.grid.rows : ℤ) := rfl
  have hidx : (getCellIndexFromPoint s x y).index =
      (getCellIndexFromPoint s x y).col +
        (getCellIndexFromPoint s x y).row * (s.grid.cols : ℤ) := rfl
  refine ⟨⟨?_, ?_⟩, ⟨?_, ?_⟩, hidx, ?_, ?_⟩
  · rw [hcolEq]; exact hcol.1
  · rw [hcolEq]; exact hcol.2
  · rw [hrowEq]; exact hrow.1
  · rw [hrowEq]; exact hrow.2
  · rw [hidx, hcolEq, hrowEq]
    have := hcol.1
    have := hrow.1
    positivity
  · rw [hidx, hcolEq, hrowEq]
    nlinarith [hcol.1, hcol.2, hrow.1, hrow.2]

/-- Witness for C4 at a point far left of and above the camera origin. -/
theorem cellFromPoint_modulo_correct_witness :
    0 < (construct 400 500).cell.width ∧ 0 < (construct 400 500).cell.height ∧
    0 < (construct 400 500).grid.cols ∧ 0 < (construct 400 500).grid.rows ∧
    (0 ≤ (getCellIndexFromPoint (construct 400 500) (-777) (-3)).col ∧
      (getCellIndexFromPoint (construct 400 500) (-777) (-3)).col <
        ((construct 400 500).grid.cols : ℤ)) ∧
    (0 ≤ (getCellIndexFromPoint (construct 400 500) (-777) (-3)).row ∧
      (getCellIndexFromPoint (construct 400 500) (-777) (-3)).row <
        ((construct 400 500).grid.rows : ℤ)) :=
  ⟨by norm_num [construct, resize], by norm_num [construct, resize],
   by norm_num [construct, resize], by norm_num [construct, resize],
   (cellFromPoint_modulo_correct (construct 400 500) (-777) (-3)
      (by norm_num [construct, resize]) (by norm_num [construct, resize])
      (by norm_num [construct, resize]) (by norm_num [construct, resize])).1,
   (cellFromPoint_modulo_correct (construct 400 500) (-777) (-3)
      (by norm_num [construct, resize]) (by norm_num [construct, resize])
      (by norm_num [construct, resize]) (by norm_num [construct, resize])).2.1⟩

/-- The render loop's fast-varying index equals `i mod cols` (Euclidean). -/
theorem renderRowIndex_eq (s : AnimState) (i : ℕ) :
    renderRowIndex s i = (i : ℤ) % (s.grid.cols : ℤ) := by
  unfold renderRowIndex
  exact Int.tmod_eq_emod (by positivity) (by positivity)

/-- The render loop's slow-varying index equals `i div cols` (Euclidean). -/
theorem renderColIndex_eq (s : AnimState) (i : ℕ) :
    renderColIndex s i = (i : ℤ) / (s.grid.cols : ℤ) := by
  unfold renderColIndex
  have h : ((i : ℕ) : ℚ) = ((i : ℤ) : ℚ) := by push_cast; ring
  rw [h, Rat.floor_intCast_div_natCast]

/-- C1: Addressor/iterator agreement — at camera scale 1, positive cell
dimensions and the canvas extent the program maintains
(`canvas = cell * grid`), `getCellIndexFromPoint` at the screen-space center
of any cell the render loop draws (its drawn top-left plus half a cell)
returns that cell's loop index `i`. -/
theorem addressor_iterator_agree (s : AnimState) (i : ℕ)
    (hz : s.camera.z = 1)
    (hw : 0 < s.cell.width) (hh : 0 < s.cell.height)
    (hcw : s.canvas.width = s.cell.width * (s.grid.cols : ℚ))
    (hch : s.canvas.height = s.cell.height * (s.grid.rows : ℚ))
    (hi : i < s.grid.cols * s.grid.rows)
    (hdrawn : cellDrawn s i) :
    (getCellIndexFromPoint s
        (drawnMinX s i + s.cell.width / 2)
        (drawnMinY s i + s.cell.height / 2)).index = (i : ℤ) := by
  have hcr : 0 < s.grid.cols * s.grid.rows := lt_of_le_of_lt (Nat.zero_le i) hi
  have hc : 0 < s.grid.cols := by
    rcases Nat.eq_zero_or_pos s.grid.cols with h0 | h0
    · rw [h0, Nat.zero_mul] at hcr; exact absurd hcr (lt_irrefl 0)
    · exact h0
  have hr : 0 < s.grid.rows := by
    rcases Nat.eq_zero_or_pos s.grid.rows with h0 | h0
    · rw [h0, Nat.mul_zero] at hcr; exact absurd hcr (lt_irrefl 0)
    · exact h0
  have hcz : (0 : ℤ) < (s.grid.cols : ℤ) := by exact_mod_cast hc
  have hrz : (0 : ℤ) < (s.grid.rows : ℤ) := by exact_mod_cast hr
  have ha : renderRowIndex s i = (i : ℤ) % (s.grid.cols : ℤ) := renderRowIndex_eq s i
  have hb : renderColIndex s i = (i : ℤ) / (s.grid.cols : ℤ) := renderColIndex_eq s i
  have ha0 : 0 ≤ renderRowIndex s i := by rw [ha]; exact Int.emod_nonneg _ (by omega)
  have ha1 : renderRowIndex s i < (s.grid.cols : ℤ) := by
    rw [ha]; exact Int.emod_lt_of_pos _ hcz
  have hb0 : 0 ≤ renderColIndex s i := by
    rw [hb]; exact Int.ediv_nonneg (by positivity) (by positivity)
  have hb1 : renderColIndex s i < (s.grid.rows : ℤ) := by
    rw [hb]
    rw [Int.ediv_lt_iff_lt_mul hcz]
    calc (i : ℤ) < ((s.grid.cols * s.grid.rows : ℕ) : ℤ) := by exact_mod_cast hi
    _ = (s.grid.rows : ℤ) * (s.grid.cols : ℤ) := by push_cast; ring
  have hshx : ∃ k : ℤ, shiftX s i = (k : ℚ) * (s.cell.width * (s.grid.cols : ℚ)) := by
    unfold shiftX
    split_ifs
    · exact ⟨1, by rw [hcw]; push_cast; ring⟩
    · exact ⟨-1, by rw [hcw]; push_cast; ring⟩
    · exact ⟨0, by push_cast; ring⟩
  have hshy : ∃ k : ℤ, shiftY s i = (k : ℚ) * (s.cell.height * (s.grid.rows : ℚ)) := by
    unfold shiftY
    split_ifs
    · exact ⟨1, by rw [hch]; push_cast; ring⟩
    · exact ⟨-1, by rw [hch]; push_cast; ring⟩
    · exact ⟨0, by push_cast; ring⟩
  obtain ⟨kx, hkx⟩ := hshx
  obtain ⟨ky, hky⟩ := hshy
  have hpx : (screenToCanvas s
      ⟨drawnMinX s i + s.cell.width / 2, drawnMinY s i + s.cell.height / 2⟩).x =
      ((renderRowIndex s i + kx * (s.grid.cols : ℤ) : ℤ) : ℚ) * s.cell.width +
        s.cell.width / 2 := by
    unfold screenToCanvas drawnMinX cellMinX
    rw [hz, div_one, hkx]
    push_cast
    ring
  have hpy : (screenToCanvas s
      ⟨drawnMinX s i + s.cell.width / 2, drawnMinY s i + s.cell.height / 2⟩).y =
      ((renderColIndex s i + ky * (s.grid.rows : ℤ) : ℤ) : ℚ) * s.cell.height +
        s.cell.height / 2 := by
    unfold screenToCanvas drawnMinY cellMinY
    rw [hz, div_one, hky]
    push_cast
    ring
  show wrapIdx ⌊(screenToCanvas s _).x / s.cell.width⌋ (s.grid.cols : ℤ) +
      wrapIdx ⌊(screenToCanvas s _).y / s.cell.height⌋ (s.grid.rows : ℤ) *
        (s.grid.cols : ℤ) = (i : ℤ)
  rw [hpx, hpy, floor_mul_add_half_div hw, floor_mul_add_half_div hh,
    wrapIdx_eq_emod _ hcz, wrapIdx_eq_emod _ hrz,
    Int.add_mul_emod_self, Int.add_mul_emod_self,
    Int.emod_eq_of_lt ha0 ha1, Int.emod_eq_of_lt hb0 hb1, ha, hb]
  exact Int.emod_add_ediv' (i : ℤ) (s.grid.cols : ℤ)

/-- Witness for C1: cell 7 of the freshly constructed 400×500 state is drawn
(with a `-canvasWidth` wrap shift) and addressing its drawn center returns 7. -/
theorem addressor_iterator_agree_witness :
    (construct 400 500).camera.z = 1 ∧
    0 < (construct 400 500).cell.width ∧
    0 < (construct 400 500).cell.height ∧
    (construct 400 500).canvas.width =
      (construct 400 500).cell.width * ((construct 400 500).grid.cols : ℚ) ∧
    (construct 400 500).canvas.height =
      (construct 400 500).cell.height * ((construct 400 500).grid.rows : ℚ) ∧
    7 < (construct 400 500).grid.cols * (construct 400 500).grid.rows ∧
    cellDrawn (construct 400 500) 7 ∧
    (getCellIndexFromPoint (construct 400 500)
        (drawnMinX (construct 400 500) 7 + (construct 400 500).cell.width / 2)
        (drawnMinY (construct 400 500) 7 + (construct 400 500).cell.height / 2)).index =
      (7 : ℤ) :=
  ⟨rfl, by norm_num [construct, resize], by norm_num [construct, resize],
   by norm_num [construct, resize], by norm_num [construct, resize],
   by norm_num [construct, resize],
   by norm_num [cellDrawn, isVisibleX, isVisibleY, shiftX, shiftY, cellMinX,
     cellMinY, renderRowIndex_eq, renderColIndex_eq, construct, resize],
   addressor_iterator_agree (construct 400 500) 7 rfl
     (by norm_num [construct, resize]) (by norm_num [construct, resize])
     (by norm_num [construct, resize]) (by norm_num [construct, resize])
     (by norm_num [construct, resize])
     (by norm_num [cellDrawn, isVisibleX, isVisibleY, shiftX, shiftY, cellMinX,
       cellMinY, renderRowIndex_eq, renderColIndex_eq, construct, resize])⟩

/-- The wrap-shift rule as the spec words it (§4.3): `+canvasWidth` when the
cell's right edge is left of screen-x 0, `-canvasWidth` when its left edge is
right of the viewport's right edge plus one cell width, else 0. -/
def specShiftX (s : AnimState) (i : ℕ) : ℚ :=
  if cellMinX s i + s.cell.width < 0 then s.canvas.width
  else if s.viewport.width + s.cell.width < cellMinX s i then -s.canvas.width
  else 0

/-- The symmetric wrap-shift rule for the y axis, as the spec words it. -/
def specShiftY (s : AnimState) (i : ℕ) : ℚ :=
  if cellMinY s i + s.cell.height < 0 then s.canvas.height
  else if s.viewport.height + s.cell.height < cellMinY s i then -s.canvas.height
  else 0

/-- The visibility condition as the claim words it: after applying its
shift, both shifted extents of the cell fall within `[0, viewport+cellSize)`
— lower bounds included. -/
def specVisible (s : AnimState) (i : ℕ) : Prop :=
  (0 ≤ cellMinX s i + shiftX s i ∧
    cellMinX s i + shiftX s i + s.cell.width < s.viewport.width + s.cell.width) ∧
  (0 ≤ cellMinY s i + shiftY s i ∧
    cellMinY s i + shiftY s i + s.cell.height < s.viewport.height + s.cell.height)

/-- A 400×500 state panned right by half a cell: cell 0 straddles the left
viewport edge. -/
def sLeftStraddle : AnimState := panCamera (construct 400 500) (125 / 2) 0

/-- C2 counterexample: cell 0 of `sLeftStraddle` is drawn, yet its shifted
left edge is negative, so the claim's `[0, viewport+cellSize)` condition
(with its lower bound) does not characterize the drawn cells. -/
theorem render_visibility_lower_bound_fails :
    cellDrawn sLeftStraddle 0 ∧ ¬ specVisible sLeftStraddle 0 := by
  constructor
  · norm_num [cellDrawn, isVisibleX, isVisibleY, shiftX, shiftY, cellMinX, cellMinY,
      renderRowIndex_eq, renderColIndex_eq, sLeftStraddle, panCamera, panX, panY,
      construct, resize]
  · intro h
    have h1 := h.1.1
    norm_num [shiftX, cellMinX, renderRowIndex_eq, sLeftStraddle, panCamera, panX,
      panY, construct, resize] at h1

/-- C2 (amended): the shift rule is as the claim states it, and a cell is
drawn iff after applying its shift, its shifted right and bottom edges are
strictly below viewport dimension plus cell dimension — only these upper
bounds are checked; the lower bounds do not hold for drawn cells. -/
theorem render_visibility_amended (s : AnimState) (i : ℕ) :
    shiftX s i = specShiftX s i ∧ shiftY s i = specShiftY s i ∧
    (cellDrawn s i ↔
      (cellMinX s i + shiftX s i + s.cell.width < s.viewport.width + s.cell.width ∧
       cellMinY s i + shiftY s i + s.cell.height < s.viewport.height + s.cell.height)) := by
  refine ⟨rfl, rfl, ?_⟩
  unfold cellDrawn isVisibleX isVisibleY
  constructor <;> intro h <;> exact ⟨by linarith [h.1], by linarith [h.2]⟩

/-- When no wrap snap fires and the scale is 1, `panCamera` moves the camera
by exactly the negated delta. -/
theorem panCamera_noSnap_delta (s : AnimState) (dx dy : ℚ) (hz : s.camera.z = 1)
    (hs : noSnap s) :
    (panCamera s dx dy).camera.x = s.camera.x - dx ∧
    (panCamera s dx dy).camera.y = s.camera.y - dy := by
  obtain ⟨h1, h2, h3, h4⟩ := hs
  have hx : panX s dx = s.camera.x - dx := by
    unfold panX
    rw [if_neg (not_lt.mpr h1), if_neg (not_lt.mpr h2), hz, div_one]
  have hy : panY s dy = s.camera.y - dy := by
    unfold panY
    rw [if_neg (not_lt.mpr h3), if_neg (not_lt.mpr h4), hz, div_one]
  exact ⟨hx, hy⟩

/-- A snap-free pan sequence at scale 1 translates the camera by the summed
deltas, keeps canvas and viewport extent, and maintains the coupling. -/
theorem panSeq_noSnap (l : List (ℚ × ℚ)) (s : AnimState) (hz : s.camera.z = 1)
    (hinv : vpInv s) (hns : noSnapSeq s l) :
    (panSeq s l).camera.x = s.camera.x - sumDx l ∧
    (panSeq s l).camera.y = s.camera.y - sumDy l ∧
    (panSeq s l).camera.z = 1 ∧
    (panSeq s l).canvas = s.canvas ∧
    (panSeq s l).viewport.width = s.viewport.width ∧
    (panSeq s l).viewport.height = s.viewport.height ∧
    vpInv (panSeq s l) := by
  induction l generalizing s with
  | nil =>
      refine ⟨?_, ?_, hz, rfl, rfl, rfl, hinv⟩ <;> simp [panSeq, sumDx, sumDy]
  | cons d ds ih =>
      obtain ⟨hns1, hns2⟩ := hns
      have hstep := panCamera_noSnap_delta s d.1 d.2 hz hns1
      have hz1 : (panCamera s d.1 d.2).camera.z = 1 := hz
      obtain ⟨ihx, ihy, ihz, ihc, ihw, ihh, ihinv⟩ :=
        ih (panCamera s d.1 d.2) hz1 (vpInv_panCamera s d.1 d.2) hns2
      rw [show panSeq s (d :: ds) = panSeq (panCamera s d.1 d.2) ds from rfl]
      refine ⟨?_, ?_, ihz, ihc, ihw, ihh, ihinv⟩
      · rw [ihx, hstep.1]
        simp [sumDx]
        ring
      · rw [ihy, hstep.2]
        simp [sumDy]
        ring

/-- C3 (amended): a snap-free pan sequence at scale 1 whose cumulative delta
is exactly one canvas-extent width leaves the viewport rectangle equal to
the pre-pan rectangle translated right by the canvas width (the same view of
the toroidal grid), not to the pre-pan rectangle itself. -/
theorem wrap_continuity_translated (s : AnimState) (l : List (ℚ × ℚ))
    (hz : s.camera.z = 1) (hinv : vpInv s) (hns : noSnapSeq s l)
    (hx : sumDx l = s.canvas.width) (hy : sumDy l = 0) :
    (panSeq s l).viewport =
      ⟨s.viewport.minX + s.canvas.width, s.viewport.minY,
       s.viewport.maxX + s.canvas.width, s.viewport.maxY,
       s.viewport.width, s.viewport.height⟩ := by
  obtain ⟨px, py, pz, pc, pw, ph, pinv⟩ := panSeq_noSnap l s hz hinv hns
  obtain ⟨i1, i2, i3, i4⟩ := pinv
  obtain ⟨j1, j2, j3, j4⟩ := hinv
  have heta : (panSeq s l).viewport =
      ⟨(panSeq s l).viewport.minX, (panSeq s l).viewport.minY,
       (panSeq s l).viewport.maxX, (panSeq s l).viewport.maxY,
       (panSeq s l).viewport.width, (panSeq s l).viewport.height⟩ := rfl
  rw [heta]
  congr 1
  · rw [i1, px, hx, j1]; ring
  · rw [i2, py, hy, j2]; ring
  · rw [i3, i1, px, hx, pw, j3, j1]; ring
  · rw [i4, i2, py, hy, ph, j4, j2]; ring

/-- C3 counterexample: panning the fresh 400×500 state by exactly one canvas
width (1250) in a single call leaves a viewport different from the pre-pan
one (its `minX` is 1250, not 0). -/
theorem wrap_exact_equality_fails :
    (construct 400 500).camera.z = 1 ∧
    sumDx [((1250 : ℚ), (0 : ℚ))] = (construct 400 500).canvas.width ∧
    sumDy [((1250 : ℚ), (0 : ℚ))] = 0 ∧
    (panSeq (construct 400 500) [(1250, 0)]).viewport ≠
      (construct 400 500).viewport := by
  refine ⟨rfl, by norm_num [sumDx, construct, resize], by norm_num [sumDy], ?_⟩
  intro h
  have hmin := congrArg Box.minX h
  norm_num [panSeq, panCamera, panX, panY, construct, resize] at hmin

/-- Witness for the amended C3 at a concrete snap-free two-step sequence
summing to one canvas width. -/
theorem wrap_continuity_translated_witness :
    (construct 400 500).camera.z = 1 ∧
    vpInv (construct 400 500) ∧
    noSnapSeq (construct 400 500) [(625, 0), (625, 0)] ∧
    sumDx [((625 : ℚ), (0 : ℚ)), (625, 0)] = (construct 400 500).canvas.width ∧
    sumDy [((625 : ℚ), (0 : ℚ)), (625, 0)] = 0 ∧
    (panSeq (construct 400 500) [(625, 0), (625, 0)]).viewport =
      ⟨(construct 400 500).viewport.minX + (construct 400 500).canvas.width,
       (construct 400 500).viewport.minY,
       (construct 400 500).viewport.maxX + (construct 400 500).canvas.width,
       (construct 400 500).viewport.maxY,
       (construct 400 500).viewport.width, (construct 400 500).viewport.height⟩ :=
  ⟨rfl, by norm_num [vpInv, construct, resize],
   by norm_num [noSnapSeq, noSnap, panCamera, panX, panY, construct, resize],
   by norm_num [sumDx, construct, resize], by norm_num [sumDy],
   wrap_continuity_translated (construct 400 500) [(625, 0), (625, 0)] rfl
     (by norm_num [vpInv, construct, resize])
     (by norm_num [noSnapSeq, noSnap, panCamera, panX, panY, construct, resize])
     (by norm_num [sumDx, construct, resize]) (by norm_num [sumDy])⟩

/-- The fresh 400×500 state carrying a released velocity of magnitude 100. -/
def sV100 : AnimState := { construct 400 500 with velocity := ⟨100, 0⟩ }

/-- `animateVelocity` never writes `isPressed`. -/
theorem animateVelocity_keeps_isPressed (s : AnimState) :
    (animateVelocity s).isPressed = s.isPressed := by
  unfold animateVelocity
  split_ifs <;> rfl

/-- A released state with zero or sub-cutoff velocity ends the call with
velocity exactly zero. -/
theorem animateVelocity_vel_zero (s : AnimState) (hp : s.isPressed = false)
    (h : s.velocity = ⟨0, 0⟩ ∨ (|s.velocity.x| < 1 / 10 ∧ |s.velocity.y| < 1 / 10)) :
    (animateVelocity s).velocity = ⟨0, 0⟩ := by
  unfold animateVelocity
  rw [if_neg (by simp [hp])]
  by_cases h2 : s.velocity.x = 0 ∧ s.velocity.y = 0
  · rw [if_pos h2]
    have heta : s.velocity = ⟨s.velocity.x, s.velocity.y⟩ := rfl
    rw [heta, h2.1, h2.2]
  · rw [if_neg h2]
    rcases h with h | h
    · exact absurd ⟨congrArg Vec2.x h, congrArg Vec2.y h⟩ h2
    · rw [if_pos h]

/-- A released state above the cutoff decays its velocity by 0.9. -/
theorem animateVelocity_vel_decay (s : AnimState)
    (hp : s.isPressed = false)
    (h2 : ¬(s.velocity.x = 0 ∧ s.velocity.y = 0))
    (h3 : ¬(|s.velocity.x| < 1 / 10 ∧ |s.velocity.y| < 1 / 10)) :
    (animateVelocity s).velocity =
      ⟨s.velocity.x * (9 / 10), s.velocity.y * (9 / 10)⟩ := by
  unfold animateVelocity
  rw [if_neg (by simp [hp]), if_neg h2, if_neg h3]

/-- After `n` released `animateVelocity` calls the velocity is either exactly
zero or the initial velocity scaled by `0.9^n`. -/
theorem animateVelocity_iterate_velocity (s : AnimState)
    (hp : s.isPressed = false) (n : ℕ) :
    (animateVelocity^[n] s).isPressed = false ∧
    ((animateVelocity^[n] s).velocity = ⟨0, 0⟩ ∨
      (animateVelocity^[n] s).velocity =
        ⟨(9 / 10 : ℚ) ^ n * s.velocity.x, (9 / 10 : ℚ) ^ n * s.velocity.y⟩) := by
  induction n with
  | zero =>
      refine ⟨hp, Or.inr ?_⟩
      simp
  | succ n ih =>
      obtain ⟨ihp, ihv⟩ := ih
      rw [Function.iterate_succ_apply']
      refine ⟨by rw [animateVelocity_keeps_isPressed]; exact ihp, ?_⟩
      rcases ihv with h | h
      · exact Or.inl (by rw [animateVelocity_vel_zero _ ihp (Or.inl h)])
      · by_cases h2 : (animateVelocity^[n] s).velocity.x = 0 ∧
            (animateVelocity^[n] s).velocity.y = 0
        · have hval : (animateVelocity^[n] s).velocity = ⟨0, 0⟩ := by
            have heta : (animateVelocity^[n] s).velocity =
                ⟨(animateVelocity^[n] s).velocity.x,
                 (animateVelocity^[n] s).velocity.y⟩ := rfl
            rw [heta, h2.1, h2.2]
          have hx0 : (9 / 10 : ℚ) ^ n * s.velocity.x = 0 := by
            have hc := congrArg Vec2.x (hval.symm.trans h)
            simpa using hc.symm
          have hy0 : (9 / 10 : ℚ) ^ n * s.velocity.y = 0 := by
            have hc := congrArg Vec2.y (hval.symm.trans h)
            simpa using hc.symm
          have hvx : s.velocity.x = 0 := by
            rcases mul_eq_zero.mp hx0 with h0 | h0
            · exact absurd h0 (pow_ne_zero n (by norm_num))
            · exact h0
          have hvy : s.velocity.y = 0 := by
            rcases mul_eq_zero.mp hy0 with h0 | h0
            · exact absurd h0 (pow_ne_zero n (by norm_num))
            · exact h0
          refine Or.inr ?_
          rw [animateVelocity_vel_zero _ ihp (Or.inl hval), hvx, hvy]
          norm_num
        · by_cases h3 : |(animateVelocity^[n] s).velocity.x| < 1 / 10 ∧
              |(animateVelocity^[n] s).velocity.y| < 1 / 10
          · exact Or.inl (animateVelocity_vel_zero _ ihp (Or.inr h3))
          · refine Or.inr ?_
            rw [animateVelocity_vel_decay _ ihp h2 h3]
            have hx := congrArg Vec2.x h
            have hy := congrArg Vec2.y h
            simp at hx hy
            rw [hx, hy]
            have e1 : (9 / 10 : ℚ) ^ n * s.velocity.x * (9 / 10) =
                (9 / 10 : ℚ) ^ (n + 1) * s.velocity.x := by ring
            have e2 : (9 / 10 : ℚ) ^ n * s.velocity.y * (9 / 10) =
                (9 / 10 : ℚ) ^ (n + 1) * s.velocity.y := by ring
            rw [e1, e2]

/-- From any released state, some finite number of `animateVelocity` calls
reaches velocity exactly zero. -/
theorem animateVelocity_reaches_zero (s : AnimState) (hp : s.isPressed = false) :
    ∃ n, (animateVelocity^[n] s).velocity = ⟨0, 0⟩ := by
  set M := max |s.velocity.x| |s.velocity.y| + 1 with hM
  have hM0 : 0 < M := by positivity
  obtain ⟨n, hn⟩ := exists_pow_lt_of_lt_one
    (show (0 : ℚ) < 1 / (10 * M) by positivity)
    (show (9 / 10 : ℚ) < 1 by norm_num)
  refine ⟨n + 1, ?_⟩
  obtain ⟨hpn, hv⟩ := animateVelocity_iterate_velocity s hp n
  rw [Function.iterate_succ_apply']
  rcases hv with h | h
  · exact animateVelocity_vel_zero _ hpn (Or.inl h)
  · have hvx : |s.velocity.x| ≤ M := le_trans (le_max_left _ _) (by linarith)
    have hvy : |s.velocity.y| ≤ M := le_trans (le_max_right _ _) (by linarith)
    have hpow : (0 : ℚ) < (9 / 10) ^ n := by positivity
    have hsx : |(9 / 10 : ℚ) ^ n * s.velocity.x| < 1 / 10 := by
      rw [abs_mul, abs_of_pos hpow]
      calc (9 / 10 : ℚ) ^ n * |s.velocity.x| ≤ (9 / 10) ^ n * M := by nlinarith
      _ < (1 / (10 * M)) * M := by nlinarith
      _ = 1 / 10 := by field_simp; ring
    have hsy : |(9 / 10 : ℚ) ^ n * s.velocity.y| < 1 / 10 := by
      rw [abs_mul, abs_of_pos hpow]
      calc (9 / 10 : ℚ) ^ n * |s.velocity.y| ≤ (9 / 10) ^ n * M := by nlinarith
      _ < (1 / (10 * M)) * M := by nlinarith
      _ = 1 / 10 := by field_simp; ring
    refine animateVelocity_vel_zero _ hpn (Or.inr ?_)
    constructor
    · rw [congrArg Vec2.x h]
      exact hsx
    · rw [congrArg Vec2.y h]
      exact hsy

/-- Up to 65 decay steps, a velocity that started at 100 is still at or above
the 0.1 cutoff. -/
theorem decay_not_small_of_le_65 (k : ℕ) (hk : k ≤ 65) :
    ¬(|(9 / 10 : ℚ) ^ k * 100| < 1 / 10 ∧ |(9 / 10 : ℚ) ^ k * 0| < 1 / 10) := by
  intro hsm
  have h1 := hsm.1
  have hge : (1 / 1000 : ℚ) ≤ (9 / 10) ^ k := by
    calc (1 / 1000 : ℚ) ≤ (9 / 10) ^ 65 := by norm_num
    _ ≤ (9 / 10) ^ k := pow_le_pow_of_le_one (by norm_num) (by norm_num) hk
  rw [abs_of_nonneg (by positivity)] at h1
  linarith

/-- For the first 66 calls on `sV100` the cutoff never engages, so the
velocity is exactly `100 * 0.9^n`. -/
theorem sV100_iterate_exact (n : ℕ) (hn : n ≤ 66) :
    (animateVelocity^[n] sV100).velocity = ⟨100 * (9 / 10 : ℚ) ^ n, 0⟩ := by
  induction n with
  | zero => simp [sV100]
  | succ n ih =>
      have hn' : n ≤ 66 := by omega
      have hvel := ih hn'
      have hpn : (animateVelocity^[n] sV100).isPressed = false :=
        (animateVelocity_iterate_velocity sV100 rfl n).1
      rw [Function.iterate_succ_apply']
      have h2 : ¬((animateVelocity^[n] sV100).velocity.x = 0 ∧
          (animateVelocity^[n] sV100).velocity.y = 0) := by
        rw [congrArg Vec2.x hvel]
        intro hc
        have h0 := hc.1
        simp at h0
      have h3 : ¬(|(animateVelocity^[n] sV100).velocity.x| < 1 / 10 ∧
          |(animateVelocity^[n] sV100).velocity.y| < 1 / 10) := by
        rw [congrArg Vec2.x hvel, congrArg Vec2.y hvel]
        intro hc
        refine decay_not_small_of_le_65 n (by omega) ⟨?_, ?_⟩
        · rw [show (9 / 10 : ℚ) ^ n * 100 = 100 * (9 / 10 : ℚ) ^ n by ring]
          exact hc.1
        · simpa using hc.2
      rw [animateVelocity_vel_decay _ hpn h2 h3,
        congrArg Vec2.x hvel, congrArg Vec2.y hvel]
      have e1 : (100 : ℚ) * (9 / 10) ^ n * (9 / 10) = 100 * (9 / 10) ^ (n + 1) := by
        ring
      rw [e1]
      norm_num

/-- C6 counterexample: after 44 released `animateVelocity` calls from a
velocity of magnitude 100 the velocity is `100 * 0.9^44 ≈ 0.97`, not zero,
so "at most ~44 calls" does not reach `(0,0)`. -/
theorem inertia_44_calls_insufficient :
    sV100.isPressed = false ∧ sV100.velocity = ⟨100, 0⟩ ∧
    (animateVelocity^[44] sV100).velocity ≠ ⟨0, 0⟩ := by
  refine ⟨rfl, rfl, ?_⟩
  rw [sV100_iterate_exact 44 (by omega)]
  intro hc
  have h0 := congrArg Vec2.x hc
  simp at h0

/-- C6 (amended): from any released state, repeated `animateVelocity` calls
reach velocity exactly `(0,0)` in finitely many steps; from a velocity of
magnitude 100 exactly 67 calls are needed — 66 decay steps until the 0.1
cutoff engages, then one snap to zero — and 66 calls do not suffice. -/
theorem inertia_termination :
    (∀ s : AnimState, s.isPressed = false →
      ∃ n, (animateVelocity^[n] s).velocity = ⟨0, 0⟩) ∧
    sV100.velocity = ⟨100, 0⟩ ∧
    (animateVelocity^[67] sV100).velocity = ⟨0, 0⟩ ∧
    (animateVelocity^[66] sV100).velocity ≠ ⟨0, 0⟩ := by
  refine ⟨animateVelocity_reaches_zero, rfl, ?_, ?_⟩
  · rw [show (67 : ℕ) = 66 + 1 from rfl, Function.iterate_succ_apply']
    have hpn : (animateVelocity^[66] sV100).isPressed = false :=
      (animateVelocity_iterate_velocity sV100 rfl 66).1
    refine animateVelocity_vel_zero _ hpn (Or.inr ?_)
    rw [congrArg Vec2.x (sV100_iterate_exact 66 (by omega)),
        congrArg Vec2.y (sV100_iterate_exact 66 (by omega))]
    constructor
    · rw [abs_of_nonneg (by positivity)]
      norm_num
    · norm_num
  · rw [sV100_iterate_exact 66 (by omega)]
    intro hc
    have h0 := congrArg Vec2.x hc
    simp at h0

/-- Witness for the amended C6: termination discharged at `sV100`. -/
theorem inertia_termination_witness :
    sV100.isPressed = false ∧
    ∃ n, (animateVelocity^[n] sV100).velocity = ⟨0, 0⟩ :=
  ⟨rfl, inertia_termination.1 sV100 rfl⟩
